import Mathlib

/-!
Shallow embedding of the `dirnotifier` package (file `dirnotifier.go`).

The package watches one directory through an fsnotify watcher and lets
callers register one-shot interest in a file.  We model:

* channels by natural-number identifiers allocated from a counter
  (`nextChan`); closing a channel increments its entry in `closeCount`,
  so "signaled exactly once" is `closeCount = 1`;
* the `sync.Map` field `filesToNotifiers` by a function
  `String → Option Nat` (path to pending channel id);
* the dispatch goroutine (`initializeWatcher` in the source) by a fold
  over a finite list of events, followed by the deferred
  `watcher.Close()` which bumps `watcherCloseCount`;
* the inner matching loop faithfully to the source: `for op := range
  dn.opsToWatch` ranges over the *indices* `0 .. len-1`, and the test is
  `event.Op & Op(index) == Op(index)`.
-/

/-- An fsnotify event: a path (`Name`) and an operation bitmask (`Op`). -/
structure Event where
  Name : String
  Op : Nat

/-- fsnotify operation flags (single-bit masks). -/
def fsnotifyCreate : Nat := 1

/-- fsnotify `Write` flag. -/
def fsnotifyWrite : Nat := 2

/-- fsnotify `Remove` flag. -/
def fsnotifyRemove : Nat := 4

/-- Observable state of one `DirectoryNotifier`: the registry
(`filesToNotifiers`), how often each channel id has been closed, the
fresh-channel allocator, and how often `watcher.Close` has run. -/
structure NotifierState where
  registry : String → Option Nat
  closeCount : Nat → Nat
  nextChan : Nat
  watcherCloseCount : Nat

/-- The state of a freshly constructed notifier: empty registry, no
channel closed, no watcher close performed. -/
def initState : NotifierState :=
  { registry := fun _ => none
    closeCount := fun _ => 0
    nextChan := 0
    watcherCloseCount := 0 }

/-- `NotifierForFile` from the source: allocate a fresh channel
(`make(chan struct\x7b\x7d, 1)` — the allocator advances even when the call
then fails), then `LoadOrStore`: if an entry for `file` already exists
return `nil` and an error, leaving the registry untouched; otherwise
store the fresh channel and return it with no error.  The result is
(returned channel or `none` for `nil`, error message or `none`, new
state). -/
def NotifierForFile (st : NotifierState) (file : String) :
    Option Nat × Option String × NotifierState :=
  match st.registry file with
  | some _ =>
      (none, some ("exec watcher already watching file " ++ file),
        { st with nextChan := st.nextChan + 1 })
  | none =>
      (some st.nextChan, none,
        { st with
            registry := fun f => if f = file then some st.nextChan else st.registry f
            nextChan := st.nextChan + 1 })

/-- `LoadAndDelete` followed by `close`: remove the entry for `name`
and close channel `ch`. -/
def resolveOne (st : NotifierState) (name : String) (ch : Nat) : NotifierState :=
  { st with
      registry := fun f => if f = name then none else st.registry f
      closeCount := fun c => if c = ch then st.closeCount c + 1 else st.closeCount c }

/-- The inner loop of `initializeWatcher`, faithful to the source: it
receives the list of *indices* produced by `for op := range
dn.opsToWatch`, tests `event.Op & Op(index) == Op(index)` for each, and
on a match does `LoadAndDelete(event.Name)`; if an entry was present it
closes the channel and breaks, otherwise it keeps iterating. -/
def dispatchInner (st : NotifierState) (e : Event) : List Nat → NotifierState
  | [] => st
  | i :: rest =>
      if e.Op &&& i = i then
        match st.registry e.Name with
        | some ch => resolveOne st e.Name ch
        | none => dispatchInner st e rest
      else dispatchInner st e rest

/-- One iteration of the outer loop of `initializeWatcher` for one
event: run the inner loop over the indices `0 .. opsToWatch.length - 1`
(the source ranges over the slice, so the operation *values* in `ops`
are never consulted — only the length matters). -/
def processEvent (ops : List Nat) (st : NotifierState) (e : Event) : NotifierState :=
  dispatchInner st e (List.range ops.length)

/-- The event's operation bitmask passes the source's inner-loop test
for at least one index, i.e. the event can trigger a `LoadAndDelete`. -/
def codeMatches (ops : List Nat) (eventOp : Nat) : Bool :=
  (List.range ops.length).any (fun i => eventOp &&& i == i)

/-- The matching policy as the specification words it: the event's
bitmask, intersected with some single configured operation *value*,
equals that operation exactly.  Stated for comparison with the source's
index-based test (`codeMatches`). -/
def specMatches (ops : List Nat) (eventOp : Nat) : Bool :=
  ops.any (fun op => eventOp &&& op == op)

/-- The deferred `dn.watcher.Close()` that runs when the event stream
ends. -/
def closeWatcher (st : NotifierState) : NotifierState :=
  { st with watcherCloseCount := st.watcherCloseCount + 1 }

/-- The whole dispatch goroutine (`initializeWatcher`) on a finite
event stream: drain every event in order, then run the deferred
`watcher.Close()` once. -/
def dispatchLoop (ops : List Nat) (st : NotifierState) (events : List Event) :
    NotifierState :=
  closeWatcher (events.foldl (processEvent ops) st)

/-- The notifier value `New` returns on success. -/
structure DirectoryNotifier where
  opsToWatch : List Nat
  dir : String

/-- What a call to `New` leaves behind: the returned notifier (`none`
for `nil`), whether an error was returned, and whether the dispatch
goroutine (`go dn.initializeWatcher()`) was launched. -/
structure NewResult where
  notifier : Option DirectoryNotifier
  err : Bool
  dispatcherSpawned : Bool

/-- `New` from the source.  `newWatcherOk` models whether
`fsnotify.NewWatcher()` succeeds, `addOk` whether `watcher.Add(dir)`
succeeds.  Faithful to the source order: the goroutine is launched
*before* `watcher.Add(dir)` is checked, so on an `Add` failure the
error return leaves the goroutine running. -/
def New (dir : String) (opsToWatch : List Nat) (newWatcherOk addOk : Bool) :
    NewResult :=
  if newWatcherOk = false then
    { notifier := none, err := true, dispatcherSpawned := false }
  else if addOk = false then
    { notifier := none, err := true, dispatcherSpawned := true }
  else
    { notifier := some { opsToWatch := opsToWatch, dir := dir }
      err := false, dispatcherSpawned := true }

/-- The registry never maps two distinct paths to the same channel
(true of the real code, where each entry holds a distinct channel). -/
def registryInjective (st : NotifierState) : Prop :=
  ∀ p q h, st.registry p = some h → st.registry q = some h → p = q

/-- State after registering file "a" in the initial state: channel 0 is
pending for "a". -/
def stA : NotifierState := (NotifierForFile initState "a").2.2

/-- If no entry is registered for the event's path, the inner loop
changes nothing: every `LoadAndDelete` misses. -/
theorem dispatchInner_no_entry (st : NotifierState) (e : Event)
    (h : st.registry e.Name = none) :
    ∀ l : List Nat, dispatchInner st e l = st := by
  intro l
  induction l with
  | nil => rfl
  | cons i rest ih =>
      simp only [dispatchInner, h]
      split <;> exact ih

/-- If an entry `ch` is registered for the event's path and some index
in the list passes the bitmask test, the inner loop resolves that
entry: it is removed and `ch` is closed. -/
theorem dispatchInner_entry (st : NotifierState) (e : Event) (ch : Nat)
    (hch : st.registry e.Name = some ch) :
    ∀ l : List Nat, l.any (fun i => e.Op &&& i == i) = true →
      dispatchInner st e l = resolveOne st e.Name ch := by
  intro l
  induction l with
  | nil => intro hany; simp at hany
  | cons i rest ih =>
      intro hany
      by_cases hi : e.Op &&& i = i
      · simp only [dispatchInner, if_pos hi, hch]
      · simp only [dispatchInner, if_neg hi]
        apply ih
        simp only [List.any_cons, Bool.or_eq_true, beq_iff_eq] at hany
        rcases hany with hany | hany
        · exact absurd hany hi
        · simpa using hany

/-- The inner loop only ever deletes: an entry present afterwards was
present before, under the same path and with the same channel. -/
theorem dispatchInner_registry_mono (st : NotifierState) (e : Event)
    (l : List Nat) (P : String) (h : Nat)
    (hres : (dispatchInner st e l).registry P = some h) :
    st.registry P = some h := by
  induction l with
  | nil => exact hres
  | cons i rest ih =>
      by_cases hi : e.Op &&& i = i
      · simp only [dispatchInner, if_pos hi] at hres
        cases hreg : st.registry e.Name with
        | some ch =>
            rw [hreg] at hres
            simp only [resolveOne] at hres
            by_cases hP : P = e.Name
            · simp [hP] at hres
            · simpa [hP] using hres
        | none =>
            rw [hreg] at hres
            exact ih hres
      · simp only [dispatchInner, if_neg hi] at hres
        exact ih hres

/-- Channels still registered after the inner loop were not closed by
it (the loop closes only the channel it deletes, and by injectivity a
surviving entry holds a different channel). -/
theorem dispatchInner_closeCount (st : NotifierState) (e : Event)
    (l : List Nat) (P : String) (h : Nat) (hinj : registryInjective st)
    (hres : (dispatchInner st e l).registry P = some h) :
    (dispatchInner st e l).closeCount h = st.closeCount h := by
  induction l with
  | nil => rfl
  | cons i rest ih =>
      by_cases hi : e.Op &&& i = i
      · simp only [dispatchInner, if_pos hi] at hres ⊢
        cases hreg : st.registry e.Name with
        | some ch =>
            rw [hreg] at hres
            simp only [resolveOne] at hres ⊢
            by_cases hP : P = e.Name
            · simp [hP] at hres
            · simp only [if_neg hP] at hres
              have hne : h ≠ ch := by
                intro hEq
                exact hP (hinj P e.Name h hres (hEq ▸ hreg))
              simp [hne]
        | none =>
            rw [hreg] at hres
            exact ih hres
      · simp only [dispatchInner, if_neg hi] at hres ⊢
        exact ih hres

/-- The inner loop preserves registry injectivity (it only deletes). -/
theorem dispatchInner_injective (st : NotifierState) (e : Event)
    (l : List Nat) (hinj : registryInjective st) :
    registryInjective (dispatchInner st e l) := by
  intro p q h hp hq
  exact hinj p q h (dispatchInner_registry_mono st e l p h hp)
    (dispatchInner_registry_mono st e l q h hq)

/-- Invariant of the event-draining fold: injectivity is preserved, and
every entry still pending at the end was pending at the start with its
channel never closed in between. -/
theorem dispatch_fold_invariant (ops : List Nat) :
    ∀ (events : List Event) (st : NotifierState), registryInjective st →
      registryInjective (events.foldl (processEvent ops) st) ∧
      ∀ P h, (events.foldl (processEvent ops) st).registry P = some h →
        st.registry P = some h ∧
        (events.foldl (processEvent ops) st).closeCount h = st.closeCount h := by
  intro events
  induction events with
  | nil =>
      intro st hinj
      exact ⟨hinj, fun P h hres => ⟨hres, rfl⟩⟩
  | cons e rest ih =>
      intro st hinj
      have hinj1 : registryInjective (processEvent ops st e) :=
        dispatchInner_injective st e (List.range ops.length) hinj
      obtain ⟨hinj2, hrest⟩ := ih (processEvent ops st e) hinj1
      refine ⟨hinj2, fun P h hres => ?_⟩
      simp only [List.foldl_cons] at hres ⊢
      obtain ⟨hmid, hcc⟩ := hrest P h hres
      refine ⟨dispatchInner_registry_mono st e (List.range ops.length) P h hmid, ?_⟩
      rw [hcc]
      exact dispatchInner_closeCount st e (List.range ops.length) P h hinj hmid

/-- State after additionally registering file "b" in `stA`: channel 1
is pending for "b". -/
def stAB : NotifierState := (NotifierForFile stA "b").2.2

/-- The inner loop never touches the watcher-close counter. -/
theorem dispatchInner_watcherCloseCount (st : NotifierState) (e : Event) :
    ∀ l : List Nat, (dispatchInner st e l).watcherCloseCount = st.watcherCloseCount := by
  intro l
  induction l with
  | nil => rfl
  | cons i rest ih =>
      by_cases hi : e.Op &&& i = i
      · simp only [dispatchInner, if_pos hi]
        cases st.registry e.Name with
        | some ch => rfl
        | none => exact ih
      · simp only [dispatchInner, if_neg hi]
        exact ih

/-- Draining the event stream never touches the watcher-close counter:
only the deferred close after the stream ends does. -/
theorem dispatch_fold_watcherCloseCount (ops : List Nat) :
    ∀ (events : List Event) (st : NotifierState),
      (events.foldl (processEvent ops) st).watcherCloseCount = st.watcherCloseCount := by
  intro events
  induction events with
  | nil => intro st; rfl
  | cons e rest ih =>
      intro st
      simp only [List.foldl_cons]
      rw [ih (processEvent ops st e)]
      exact dispatchInner_watcherCloseCount st e (List.range ops.length)

example : stA.registry "a" = some 0 := by decide
example : stA.registry "b" = none := by decide
example : stAB.registry "b" = some 1 := by decide
example : codeMatches [fsnotifyCreate] fsnotifyWrite = true := by decide
example : specMatches [fsnotifyCreate] fsnotifyWrite = false := by decide

/-- C1: refuted on the code.  With configured operations `[Create]` and
a pending registration for "a", a `Write` event for "a" — whose bitmask
contains no configured operation (`Write &&& Create ≠ Create`) — is
nevertheless resolved by the dispatch loop: the entry is removed and
its channel is closed.  The source ranges over the *indices* of
`opsToWatch`, and index 0 yields the mask `Op(0) = 0`, which every
event bitmask satisfies. -/
theorem nonmatching_event_still_resolves :
    ¬(fsnotifyWrite &&& fsnotifyCreate = fsnotifyCreate) ∧
    (processEvent [fsnotifyCreate] stA { Name := "a", Op := fsnotifyWrite }).registry "a" = none ∧
    (processEvent [fsnotifyCreate] stA { Name := "a", Op := fsnotifyWrite }).closeCount 0 = 1 := by
  decide

/-- C2: refuted on the code.  The specified policy — match iff the
event's bitmask intersected with some single configured operation value
equals that value — rejects a `Write` event under configuration
`[Create]` (`specMatches = false`), yet the code's index-based test
accepts it (`codeMatches = true`) and resolves the pending entry for
"a": the code does not implement the claimed iff. -/
theorem index_matching_diverges_from_spec :
    specMatches [fsnotifyCreate] fsnotifyWrite = false ∧
    codeMatches [fsnotifyCreate] fsnotifyWrite = true ∧
    (processEvent [fsnotifyCreate] stA { Name := "a", Op := fsnotifyCreate }).registry "a" = none := by
  decide

/-- C3: counterexample.  When `fsnotify.NewWatcher()` succeeds but
`watcher.Add(dir)` fails, `New` returns a setup error — but the
dispatch goroutine was launched *before* the `Add` check, so a
background dispatch task is left running, contrary to the claim. -/
theorem new_add_failure_counterexample :
    (New "/does-not-exist" [fsnotifyCreate] true false).err = true ∧
    (New "/does-not-exist" [fsnotifyCreate] true false).notifier = none ∧
    (New "/does-not-exist" [fsnotifyCreate] true false).dispatcherSpawned = true :=
  ⟨rfl, rfl, rfl⟩

/-- C3 (amended): when the add/watch step fails, `New` returns a setup
error and a `nil` notifier, but the background dispatch task has
already been started and is left running. -/
theorem new_add_failure_spec (dir : String) (ops : List Nat) :
    (New dir ops true false).err = true ∧
    (New dir ops true false).notifier = none ∧
    (New dir ops true false).dispatcherSpawned = true :=
  ⟨rfl, rfl, rfl⟩

/-- C4: exactly-once delivery.  If channel `h` is pending for path `P`
(and not yet closed) and one event for `P` passing the code's matching
test is processed, then `P` is removed from the registry and `h` is
closed exactly once; processing a second identical event afterwards
leaves the state exactly as it was (no signal, no registry change). -/
theorem exactly_once_delivery (ops : List Nat) (st : NotifierState)
    (P : String) (h : Nat) (e : Event)
    (hreg : st.registry P = some h) (hname : e.Name = P)
    (hclosed : st.closeCount h = 0)
    (hmatch : codeMatches ops e.Op = true) :
    (processEvent ops st e).registry P = none ∧
    (processEvent ops st e).closeCount h = 1 ∧
    processEvent ops (processEvent ops st e) e = processEvent ops st e := by
  have hP : st.registry e.Name = some h := by rw [hname]; exact hreg
  have hstep : processEvent ops st e = resolveOne st e.Name h :=
    dispatchInner_entry st e h hP (List.range ops.length) hmatch
  have hnone : (processEvent ops st e).registry P = none := by
    rw [hstep]; simp [resolveOne, hname]
  refine ⟨hnone, ?_, ?_⟩
  · rw [hstep]; simp [resolveOne, hclosed]
  · have hnone2 : (processEvent ops st e).registry e.Name = none := by
      rw [hname]; exact hnone
    exact dispatchInner_no_entry (processEvent ops st e) e hnone2 (List.range ops.length)

/-- C4 witness at a concrete input. -/
theorem exactly_once_delivery_witness :
    (processEvent [fsnotifyCreate, fsnotifyWrite] stA { Name := "a", Op := fsnotifyWrite }).registry "a" = none ∧
    (processEvent [fsnotifyCreate, fsnotifyWrite] stA { Name := "a", Op := fsnotifyWrite }).closeCount 0 = 1 ∧
    processEvent [fsnotifyCreate, fsnotifyWrite]
        (processEvent [fsnotifyCreate, fsnotifyWrite] stA { Name := "a", Op := fsnotifyWrite })
        { Name := "a", Op := fsnotifyWrite } =
      processEvent [fsnotifyCreate, fsnotifyWrite] stA { Name := "a", Op := fsnotifyWrite } :=
  exactly_once_delivery [fsnotifyCreate, fsnotifyWrite] stA "a" 0
    { Name := "a", Op := fsnotifyWrite } (by decide) rfl (by decide) (by decide)

/-- C5: registration.  If a live entry for `P` exists, `NotifierForFile`
returns `nil` with an error and leaves the registry (hence the existing
handle, still pending) unchanged; if none exists, it returns a fresh
channel with no error and stores it under `P`, leaving every other path
alone, and the returned channel differs from every channel already
registered (given the allocator invariant). -/
theorem notifierForFile_register_spec (st : NotifierState) (P : String) :
    (∀ h, st.registry P = some h →
        (NotifierForFile st P).1 = none ∧
        (NotifierForFile st P).2.1 ≠ none ∧
        (NotifierForFile st P).2.2.registry = st.registry) ∧
    (st.registry P = none →
        (NotifierForFile st P).1 = some st.nextChan ∧
        (NotifierForFile st P).2.1 = none ∧
        (NotifierForFile st P).2.2.registry P = some st.nextChan ∧
        (∀ f, f ≠ P → (NotifierForFile st P).2.2.registry f = st.registry f) ∧
        ((∀ f h, st.registry f = some h → h < st.nextChan) →
          ∀ f h, st.registry f = some h → (NotifierForFile st P).1 ≠ some h)) := by
  constructor
  · intro h hreg
    refine ⟨?_, ?_, ?_⟩ <;> simp [NotifierForFile, hreg]
  · intro hreg
    refine ⟨?_, ?_, ?_, ?_, ?_⟩
    · simp [NotifierForFile, hreg]
    · simp [NotifierForFile, hreg]
    · simp [NotifierForFile, hreg]
    · intro f hf
      simp [NotifierForFile, hreg, hf]
    · intro hbound f h hfh
      have hlt : h < st.nextChan := hbound f h hfh
      simp only [NotifierForFile, hreg]
      intro hEq
      rw [Option.some_inj] at hEq
      exact absurd hEq.symm (Nat.ne_of_lt hlt)

/-- C5 witness: duplicate registration for "a" in `stA` fails and
leaves the registry unchanged; registering "b" succeeds. -/
theorem notifierForFile_register_spec_witness :
    ((NotifierForFile stA "a").1 = none ∧
     (NotifierForFile stA "a").2.1 ≠ none ∧
     (NotifierForFile stA "a").2.2.registry = stA.registry) ∧
    ((NotifierForFile stA "b").1 = some stA.nextChan ∧
     (NotifierForFile stA "b").2.1 = none ∧
     (NotifierForFile stA "b").2.2.registry "b" = some stA.nextChan) := by
  constructor
  · exact (notifierForFile_register_spec stA "a").1 0 (by decide)
  · have h := (notifierForFile_register_spec stA "b").2 (by decide)
    exact ⟨h.1, h.2.1, h.2.2.1⟩

/-- C6: re-registration after resolution.  Once a matching event for
`P` has been dispatched (removing `P` from the registry), a subsequent
`NotifierForFile P` succeeds: it returns a fresh channel with no error
and stores it under `P`. -/
theorem reregistration_after_resolution (ops : List Nat) (st : NotifierState)
    (P : String) (h : Nat) (e : Event)
    (hreg : st.registry P = some h) (hname : e.Name = P)
    (hmatch : codeMatches ops e.Op = true) :
    (NotifierForFile (processEvent ops st e) P).1 =
      some (processEvent ops st e).nextChan ∧
    (NotifierForFile (processEvent ops st e) P).2.1 = none ∧
    (NotifierForFile (processEvent ops st e) P).2.2.registry P =
      some (processEvent ops st e).nextChan := by
  have hP : st.registry e.Name = some h := by rw [hname]; exact hreg
  have hstep : processEvent ops st e = resolveOne st e.Name h :=
    dispatchInner_entry st e h hP (List.range ops.length) hmatch
  have hnone : (processEvent ops st e).registry P = none := by
    rw [hstep]; simp [resolveOne, hname]
  refine ⟨?_, ?_, ?_⟩ <;> simp [NotifierForFile, hnone]

/-- C6 witness at a concrete input. -/
theorem reregistration_after_resolution_witness :
    (NotifierForFile (processEvent [fsnotifyCreate] stA { Name := "a", Op := fsnotifyCreate }) "a").1 =
      some (processEvent [fsnotifyCreate] stA { Name := "a", Op := fsnotifyCreate }).nextChan ∧
    (NotifierForFile (processEvent [fsnotifyCreate] stA { Name := "a", Op := fsnotifyCreate }) "a").2.1 = none ∧
    (NotifierForFile (processEvent [fsnotifyCreate] stA { Name := "a", Op := fsnotifyCreate }) "a").2.2.registry "a" =
      some (processEvent [fsnotifyCreate] stA { Name := "a", Op := fsnotifyCreate }).nextChan :=
  reregistration_after_resolution [fsnotifyCreate] stA "a" 0
    { Name := "a", Op := fsnotifyCreate } (by decide) rfl (by decide)

/-- C7: unrelated paths are independent.  With `hq` pending for `Q`,
registering a different path `P` and then dispatching a matching event
for `P` leaves `Q`'s entry present with the same channel, and that
channel is closed no more often than before. -/
theorem unrelated_paths_independent (ops : List Nat) (st : NotifierState)
    (P Q : String) (hq : Nat) (e : Event)
    (hQP : Q ≠ P) (hQ : st.registry Q = some hq) (hP : st.registry P = none)
    (hfresh : hq < st.nextChan) (hname : e.Name = P)
    (hmatch : codeMatches ops e.Op = true) :
    (processEvent ops (NotifierForFile st P).2.2 e).registry Q = some hq ∧
    (processEvent ops (NotifierForFile st P).2.2 e).closeCount hq = st.closeCount hq := by
  have hst1 : (NotifierForFile st P).2.2.registry e.Name = some st.nextChan := by
    simp [NotifierForFile, hP, hname]
  have hstep : processEvent ops (NotifierForFile st P).2.2 e
      = resolveOne (NotifierForFile st P).2.2 e.Name st.nextChan :=
    dispatchInner_entry (NotifierForFile st P).2.2 e st.nextChan hst1
      (List.range ops.length) hmatch
  have hne : hq ≠ st.nextChan := Nat.ne_of_lt hfresh
  constructor
  · rw [hstep]
    simp [resolveOne, NotifierForFile, hP, hname, hQP, hQ]
  · rw [hstep]
    simp [resolveOne, NotifierForFile, hP, hne]

/-- C7 witness at a concrete input. -/
theorem unrelated_paths_independent_witness :
    (processEvent [fsnotifyCreate] (NotifierForFile stA "b").2.2 { Name := "b", Op := fsnotifyRemove }).registry "a" = some 0 ∧
    (processEvent [fsnotifyCreate] (NotifierForFile stA "b").2.2 { Name := "b", Op := fsnotifyRemove }).closeCount 0 =
      stA.closeCount 0 :=
  unrelated_paths_independent [fsnotifyCreate] stA "b" "a" 0
    { Name := "b", Op := fsnotifyRemove } (by decide) (by decide) (by decide)
    (by decide) rfl (by decide)

/-- C8: the dispatch loop runs until the event stream ends and no
longer: its final state is exactly the fold over the whole stream, plus
the one deferred watcher close (the close counter rises by exactly one,
and the drain itself never closes the watcher).  The termination step
changes neither the registry nor any channel's close count, and every
entry still pending at termination was pending from the start with its
channel never signaled. -/
theorem dispatch_loop_termination (ops : List Nat) (st : NotifierState)
    (events : List Event) (hinj : registryInjective st) :
    (dispatchLoop ops st events).watcherCloseCount = st.watcherCloseCount + 1 ∧
    (dispatchLoop ops st events).registry =
      (events.foldl (processEvent ops) st).registry ∧
    (dispatchLoop ops st events).closeCount =
      (events.foldl (processEvent ops) st).closeCount ∧
    ∀ P h, (dispatchLoop ops st events).registry P = some h →
      st.registry P = some h ∧
      (dispatchLoop ops st events).closeCount h = st.closeCount h := by
  obtain ⟨hinj2, hinv⟩ := dispatch_fold_invariant ops events st hinj
  refine ⟨?_, rfl, rfl, ?_⟩
  · show (events.foldl (processEvent ops) st).watcherCloseCount + 1 = st.watcherCloseCount + 1
    rw [dispatch_fold_watcherCloseCount ops events st]
  · intro P h hres
    exact hinv P h hres

/-- C8 witness at a concrete input: one event for an unregistered path,
with "a" still pending at termination. -/
theorem dispatch_loop_termination_witness :
    (dispatchLoop [fsnotifyCreate] stA [{ Name := "c", Op := fsnotifyWrite }]).watcherCloseCount =
      stA.watcherCloseCount + 1 ∧
    (dispatchLoop [fsnotifyCreate] stA [{ Name := "c", Op := fsnotifyWrite }]).registry =
      ([{ Name := "c", Op := fsnotifyWrite }].foldl (processEvent [fsnotifyCreate]) stA).registry ∧
    (dispatchLoop [fsnotifyCreate] stA [{ Name := "c", Op := fsnotifyWrite }]).closeCount =
      ([{ Name := "c", Op := fsnotifyWrite }].foldl (processEvent [fsnotifyCreate]) stA).closeCount ∧
    ∀ P h, (dispatchLoop [fsnotifyCreate] stA [{ Name := "c", Op := fsnotifyWrite }]).registry P = some h →
      stA.registry P = some h ∧
      (dispatchLoop [fsnotifyCreate] stA [{ Name := "c", Op := fsnotifyWrite }]).closeCount h =
        stA.closeCount h :=
  dispatch_loop_termination [fsnotifyCreate] stA [{ Name := "c", Op := fsnotifyWrite }]
    (by
      intro p q h hp hq
      by_cases hp1 : p = "a"
      · by_cases hq1 : q = "a"
        · rw [hp1, hq1]
        · simp [stA, NotifierForFile, initState, hq1] at hq
      · simp [stA, NotifierForFile, initState, hp1] at hp)

/-- C9: with an empty set of configured operations the index list
`0 .. len-1` is empty, so the dispatch loop performs no `LoadAndDelete`
at all: over any event stream the registry and every channel's close
count are untouched. -/
theorem empty_ops_never_resolves (st : NotifierState) (events : List Event) :
    (dispatchLoop [] st events).registry = st.registry ∧
    (dispatchLoop [] st events).closeCount = st.closeCount := by
  have hfold : ∀ (evs : List Event) (s : NotifierState),
      evs.foldl (processEvent ([] : List Nat)) s = s := by
    intro evs
    induction evs with
    | nil => intro s; rfl
    | cons e rest ih =>
        intro s
        simp only [List.foldl_cons]
        exact ih (processEvent [] s e)
  constructor
  · show (events.foldl (processEvent ([] : List Nat)) st).registry = st.registry
    rw [hfold events st]
  · show (events.foldl (processEvent ([] : List Nat)) st).closeCount = st.closeCount
    rw [hfold events st]

/-- C10: a duplicate `NotifierForFile` call returns the `nil` channel,
never the channel of the earlier registrant. -/
theorem duplicate_call_returns_nil (st : NotifierState) (P : String) (h : Nat)
    (hreg : st.registry P = some h) :
    (NotifierForFile st P).1 = none ∧ (NotifierForFile st P).1 ≠ some h := by
  simp [NotifierForFile, hreg]

/-- C10 witness at a concrete input. -/
theorem duplicate_call_returns_nil_witness :
    (NotifierForFile stAB "b").1 = none ∧ (NotifierForFile stAB "b").1 ≠ some 1 :=
  duplicate_call_returns_nil stAB "b" 1 (by decide)
